import Mathlib

/-!
Verification of the Email-Job-tracker classification/synchronization core.

Shallow embedding of:
 - the regex-based heuristic classifier of `src/unnamed/part_001`
   (`extractEmailInfo`, `getEmailBody`, `companyPatterns`, `rolePatterns`,
   `statusPatterns`),
 - the typed full-sync route `src/app/api/gmail/route.ts` (`extractEmailInfo`
   with constant fallback, `GET`),
 - the incremental route `src/app/api/gmail/new/route.ts` (`POST`),
 - the client sync logic of `src/unnamed/part_000`
   (`updateEmailsWithNewData`, `checkNewEmails`, `fetchEmails`).

JavaScript regular expressions are embedded by a small backtracking engine
(`RE`/`mrun`) whose result list is ordered exactly as a JS engine explores
alternatives: alternatives left to right, greedy quantifiers longest first,
lazy quantifiers shortest first, scan positions left to right; the head of
the list is the match JS returns.  External effects (the Gmail list/get
calls, the AI call, `Date` parsing, base64url decoding) are parameters.
-/

namespace JobTracker

/-- JS `\s` on the ASCII range (space, tab, newline, carriage return,
vertical tab, form feed); also used by `String.prototype.trim`. -/
def isSpaceJS (c : Char) : Bool :=
  c = ' ' || c = '\t' || c = '\n' || c = '\r' || c = '\x0b' || c = '\x0c'

/-- Case-insensitive character comparison, for `/i` regex flags. -/
def lowerEq (a b : Char) : Bool := a.toLower = b.toLower

/-- Fragment of JS regular expressions used by the repository: character
classes, greedy/lazy `+`, greedy `*` (only over classes, so every loop
iteration consumes), sequencing, ordered alternation, optional groups,
the `$` anchor and a single capturing group. -/
inductive RE : Type where
  | eps : RE
  | cls : (Char → Bool) → RE
  | plusLazy : (Char → Bool) → RE
  | plusGreedy : (Char → Bool) → RE
  | starGreedy : (Char → Bool) → RE
  | endAnchor : RE
  | seq : RE → RE → RE
  | alt : RE → RE → RE
  | opt : RE → RE
  | group : RE → RE

/-- Rests of `cs` after consuming one or more `p`-characters, shortest
consumption first (the lazy exploration order). -/
def lazyRests (p : Char → Bool) : List Char → List (List Char)
  | [] => []
  | c :: cs => if p c then cs :: lazyRests p cs else []

/-- Backtracking run of a regex at the start of `cs`: every way the regex can
match a prefix, as `(rest, capture of group 1)`, in JS preference order. -/
def mrun : RE → List Char → List (List Char × Option (List Char))
  | .eps, cs => [(cs, none)]
  | .cls _, [] => []
  | .cls p, c :: cs => if p c then [(cs, none)] else []
  | .plusLazy p, cs => (lazyRests p cs).map (fun r => (r, none))
  | .plusGreedy p, cs => (lazyRests p cs).reverse.map (fun r => (r, none))
  | .starGreedy p, cs => ((cs :: lazyRests p cs).reverse).map (fun r => (r, none))
  | .endAnchor, [] => [([], none)]
  | .endAnchor, _ :: _ => []
  | .seq a b, cs =>
      (mrun a cs).flatMap (fun pr => (mrun b pr.1).map (fun qr => (qr.1, pr.2 <|> qr.2)))
  | .alt a b, cs => mrun a cs ++ mrun b cs
  | .opt a, cs => mrun a cs ++ [(cs, none)]
  | .group a, cs => (mrun a cs).map (fun pr => (pr.1, some (cs.take (cs.length - pr.1.length))))

/-- `str.match(re)` for an unanchored regex: scan start positions left to
right, return group 1 of the first match (`some none` when the regex matched
but group 1 did not participate). -/
def searchCapAux (re : RE) : List Char → Option (Option (List Char))
  | [] =>
      match mrun re [] with
      | [] => none
      | pr :: _ => some pr.2
  | c :: cs =>
      match mrun re (c :: cs) with
      | [] => searchCapAux re cs
      | pr :: _ => some pr.2

/-- `re.test(str)`. -/
def reTest (re : RE) (cs : List Char) : Bool := (searchCapAux re cs).isSome

/-- `str.replace(re, '')` for a non-global regex: delete the leftmost match. -/
def replaceFirstRE (re : RE) : List Char → List Char
  | [] =>
      match mrun re [] with
      | pr :: _ => pr.1
      | [] => []
  | c :: cs =>
      match mrun re (c :: cs) with
      | pr :: _ => pr.1
      | [] => c :: replaceFirstRE re cs

/-- Case-insensitive literal (every pattern that spells out letters in the
source carries the `/i` flag, or is applied to already-lowercased text). -/
def litChars : List Char → RE
  | [] => .eps
  | c :: cs => .seq (.cls (fun x => lowerEq x c)) (litChars cs)

def lit (s : String) : RE := litChars s.data

def altList : List RE → RE
  | [] => .cls (fun _ => false)
  | [r] => r
  | r :: rs => .alt r (altList rs)

def seqList : List RE → RE
  | [] => .eps
  | [r] => r
  | r :: rs => .seq r (seqList rs)

/-- `\s+`. -/
def wsPlus : RE := .plusGreedy isSpaceJS

/-- `\s*`. -/
def wsStar : RE := .starGreedy isSpaceJS

/-- Split a string on single spaces (helper for spelling out literal
phrases whose words are separated by `\s+` in the source regexes). -/
def wordsOf (s : String) : List (List Char) :=
  (s.data.foldr
    (fun c acc =>
      match acc with
      | [] => if c = ' ' then [[], []] else [[c]]
      | w :: ws => if c = ' ' then [] :: (w :: ws) else (c :: w) :: ws)
    [])

/-- `word1\s+word2\s+...` for a phrase written with single spaces. -/
def phrase (s : String) : RE :=
  seqList ((wordsOf s).map litChars |>.intersperse wsPlus)

/-- `str.trim()`. -/
def trimJS (cs : List Char) : List Char :=
  ((cs.dropWhile isSpaceJS).reverse.dropWhile isSpaceJS).reverse

/-- `str.split(sep-class)` (JS `String.prototype.split` with a single
character class; keeps empty fields, always returns at least one field). -/
def splitOnPred (p : Char → Bool) : List Char → List (List Char)
  | [] => [[]]
  | c :: cs =>
      if p c then [] :: splitOnPred p cs
      else
        match splitOnPred p cs with
        | [] => [[c]]
        | w :: ws => (c :: w) :: ws

/-! ### Status patterns (`statusPatterns` in `src/unnamed/part_001`, lines 144-174)

Evaluated against the lower-cased `subject + ' ' + body`, in insertion
order Rejected, Interview, Offer, Application Received; first category any
of whose patterns tests true wins; default `'Applied'`. -/

/-- `/(?:regret|unfortunately|not\s+moving\s+forward|not\s+selected|not\s+proceed|unsuccessful)/i` -/
def reRejected1 : RE :=
  altList [lit "regret", lit "unfortunately", phrase "not moving forward",
    phrase "not selected", phrase "not proceed", lit "unsuccessful"]

/-- `/thank\s+you\s+for\s+your\s+interest/i` -/
def reRejected2 : RE := phrase "thank you for your interest"

/-- `/other\s+candidates|better\s+suited|not\s+the\s+best\s+fit/i` -/
def reRejected3 : RE :=
  altList [phrase "other candidates", phrase "better suited", phrase "not the best fit"]

/-- `/(?:interview|next\s+steps|move\s+forward|schedule\s+a\s+call)/i` -/
def reInterview1 : RE :=
  altList [lit "interview", phrase "next steps", phrase "move forward", phrase "schedule a call"]

/-- `/technical\s+(?:round|assessment|challenge)|coding\s+challenge/i` -/
def reInterview2 : RE :=
  altList [seqList [lit "technical", wsPlus, altList [lit "round", lit "assessment", lit "challenge"]],
    phrase "coding challenge"]

/-- `/available\s+for\s+(?:a\s+)?(?:chat|call|meeting)/i` -/
def reInterview3 : RE :=
  seqList [lit "available", wsPlus, lit "for", wsPlus, .opt (seqList [lit "a", wsPlus]),
    altList [lit "chat", lit "call", lit "meeting"]]

/-- `/(?:offer|congratulations|welcome\s+aboard|joining|start\s+date)/i` -/
def reOffer1 : RE :=
  altList [lit "offer", lit "congratulations", phrase "welcome aboard", lit "joining",
    phrase "start date"]

/-- `/pleased\s+to\s+(?:offer|inform)|formal\s+offer/i` -/
def reOffer2 : RE :=
  altList [seqList [lit "pleased", wsPlus, lit "to", wsPlus, altList [lit "offer", lit "inform"]],
    phrase "formal offer"]

/-- `/(?:received|confirmed|submitted|reviewing|processing)\s+(?:your\s+)?application/i` -/
def reAppRec1 : RE :=
  seqList [altList [lit "received", lit "confirmed", lit "submitted", lit "reviewing",
      lit "processing"],
    wsPlus, .opt (seqList [lit "your", wsPlus]), lit "application"]

/-- `/thank\s+you\s+for\s+(?:applying|your\s+application|your\s+interest)/i` -/
def reAppRec2 : RE :=
  seqList [lit "thank", wsPlus, lit "you", wsPlus, lit "for", wsPlus,
    altList [lit "applying", phrase "your application", phrase "your interest"]]

/-- `/application\s+(?:confirmation|received|submitted)/i` -/
def reAppRec3 : RE :=
  seqList [lit "application", wsPlus, altList [lit "confirmation", lit "received", lit "submitted"]]

def rejectedPatterns : List RE := [reRejected1, reRejected2, reRejected3]
def interviewPatterns : List RE := [reInterview1, reInterview2, reInterview3]
def offerPatterns : List RE := [reOffer1, reOffer2]
def appReceivedPatterns : List RE := [reAppRec1, reAppRec2, reAppRec3]

/-- `Object.entries(statusPatterns)` in source (insertion) order. -/
def statusPatterns : List (String × List RE) :=
  [("Rejected", rejectedPatterns),
   ("Interview", interviewPatterns),
   ("Offer", offerPatterns),
   ("Application Received", appReceivedPatterns)]

/-- `const combinedText = (subject + ' ' + body).toLowerCase()`. -/
def lowerCombined (subject body : String) : List Char :=
  ((subject ++ " " ++ body).data).map Char.toLower

/-- The status loop: initial `'Applied'`, first matching category breaks. -/
def determineStatus (subject body : String) : String :=
  match statusPatterns.find? (fun sp => sp.2.any (fun re => reTest re (lowerCombined subject body))) with
  | some sp => sp.1
  | none => "Applied"

/-! ### Company patterns (`companyPatterns` in `src/unnamed/part_001`, lines 90-104) -/

/-- The class `[A-Za-z0-9\s&\.]`. -/
def inCompanyClass (c : Char) : Bool :=
  ('A' ≤ c && c ≤ 'Z') || ('a' ≤ c && c ≤ 'z') || ('0' ≤ c && c ≤ '9') ||
    isSpaceJS c || c = '&' || c = '.'

/-- The class `[-–—|]` (hyphen, en dash, em dash, pipe). -/
def isDashPipe (c : Char) : Bool :=
  c = '-' || c = '–' || c = '—' || c = '|'

/-- `/(?:at|@|from)\s+([A-Za-z0-9\s&\.]+?)(?:\s+(?:for|position|role|about|regarding)|\s*$)/i` -/
def reCompany1 : RE :=
  seqList [altList [lit "at", lit "@", lit "from"], wsPlus, .group (.plusLazy inCompanyClass),
    altList [seqList [wsPlus, altList [lit "for", lit "position", lit "role", lit "about",
        lit "regarding"]],
      .seq wsStar .endAnchor]]

/-- `/^([A-Za-z0-9\s&\.]+?)(?:\s*[-–—|]|$)/` (anchored). -/
def reCompany2 : RE :=
  seqList [.group (.plusLazy inCompanyClass),
    altList [.seq wsStar (.cls isDashPipe), .endAnchor]]

/-- `/([A-Za-z0-9\s&\.]+?)\s+(?:Careers|Jobs|Hiring|Recruitment)/i` -/
def reCompany3 : RE :=
  seqList [.group (.plusLazy inCompanyClass), wsPlus,
    altList [lit "careers", lit "jobs", lit "hiring", lit "recruitment"]]

/-- `/(?:workday|greenhouse|lever|indeed|linkedin)\s+on\s+behalf\s+of\s+([A-Za-z0-9\s&\.]+)/i` -/
def reCompany4 : RE :=
  seqList [altList [lit "workday", lit "greenhouse", lit "lever", lit "indeed", lit "linkedin"],
    wsPlus, lit "on", wsPlus, lit "behalf", wsPlus, lit "of", wsPlus,
    .group (.plusGreedy inCompanyClass)]

/-- `/(?:welcome\s+to|joining|application\s+(?:at|with|for))\s+([A-Za-z0-9\s&\.]+?)(?:\s+team|\s*[.!])/i` -/
def reCompany5 : RE :=
  seqList [altList [seqList [lit "welcome", wsPlus, lit "to"], lit "joining",
      seqList [lit "application", wsPlus, altList [lit "at", lit "with", lit "for"]]],
    wsPlus, .group (.plusLazy inCompanyClass),
    altList [seqList [wsPlus, lit "team"], .seq wsStar (.cls (fun c => c = '.' || c = '!'))]]

/-- The ordered pattern list; the `Bool` marks the `^`-anchored pattern. -/
def companyPatterns : List (Bool × RE) :=
  [(false, reCompany1), (true, reCompany2), (false, reCompany3),
   (false, reCompany4), (false, reCompany5)]

/-- `(subject + ' ' + body).match(pattern)?.[1]` usable as truthy:
group 1 of the first match, `none` when there is no match, group 1 did not
participate, or it captured the empty string. -/
def patternCapture (anchored : Bool) (re : RE) (cs : List Char) : Option (List Char) :=
  let m :=
    if anchored then
      match mrun re cs with
      | [] => none
      | pr :: _ => some pr.2
    else searchCapAux re cs
  match m with
  | some (some cap) => if cap.isEmpty then none else some cap
  | _ => none

/-- The `for (const pattern of companyPatterns)` loop with `break` on the
first truthy `match?.[1]`. -/
def findCompanyMatch (combined : List Char) : Option (List Char) :=
  companyPatterns.findSome? (fun pr => patternCapture pr.1 pr.2 combined)

/-- `/@([^>]+)>/` — the domain is only found in an angle-bracketed address. -/
def reEmailDomain : RE :=
  seqList [.cls (fun c => c = '@'), .group (.plusGreedy (fun c => c ≠ '>')),
    .cls (fun c => c = '>')]

/-- `/(?:careers|jobs|hr|recruiting|talent)/i` (non-global: one removal). -/
def reDomainNoise : RE :=
  altList [lit "careers", lit "jobs", lit "hr", lit "recruiting", lit "talent"]

/-- `from.match(/@([^>]+)>/)?.[1] || ''`. -/
def emailDomainOf (fromStr : String) : List Char :=
  match searchCapAux reEmailDomain fromStr.data with
  | some (some cap) => cap
  | _ => []

/-- `emailDomain.split('.')[0]`. -/
def companyDomainOf (fromStr : String) : List Char :=
  (splitOnPred (fun c => c = '.') (emailDomainOf fromStr)).headD []

/-- `companyDomain.replace(noise, '').split(/[.-]/).map(capitalize).join(' ').trim()`. -/
def deriveCompanyFromDomain (companyDomain : List Char) : List Char :=
  trimJS (List.intercalate [' ']
    ((splitOnPred (fun c => c = '.' || c = '-') (replaceFirstRE reDomainNoise companyDomain)).map
      (fun word =>
        match word with
        | [] => []
        | c :: cs => c.toUpper :: cs)))

/-- The company-name section of `extractEmailInfo` (`src/unnamed/part_001`,
lines 83-118): ordered patterns first-match-wins, then the domain fallback
guarded by `companyName === 'Unknown Company' && companyDomain`. -/
def extractCompany (subject body fromStr : String) : String :=
  let combined := (subject ++ " " ++ body).data
  let companyDomain := companyDomainOf fromStr
  let companyName :=
    match findCompanyMatch combined with
    | some cap => trimJS cap
    | none => "Unknown Company".data
  let companyName :=
    if companyName = "Unknown Company".data && !companyDomain.isEmpty then
      deriveCompanyFromDomain companyDomain
    else companyName
  ⟨companyName⟩

/-! ### Role patterns (`rolePatterns` in `src/unnamed/part_001`, lines 121-134) -/

/-- The class `[^-|@\n.]`. -/
def inRoleClass1 (c : Char) : Bool := !(c = '-' || c = '|' || c = '@' || c = '\n' || c = '.')

/-- The class `[^,\n]`. -/
def inRoleClass2 (c : Char) : Bool := !(c = ',' || c = '\n')

/-- The class `[^,\n.]`. -/
def inRoleClass3 (c : Char) : Bool := !(c = ',' || c = '\n' || c = '.')

/-- `/(?:for|position:|role:)\s+([^-|@\n.]+?)(?:\s+at|$)/i` -/
def reRole1 : RE :=
  seqList [altList [lit "for", lit "position:", lit "role:"], wsPlus,
    .group (.plusLazy inRoleClass1), altList [seqList [wsPlus, lit "at"], .endAnchor]]

/-- `/[-–—|]\s*([^-|@\n.]+?)(?:\s+at|$)/i` -/
def reRole2 : RE :=
  seqList [.cls isDashPipe, wsStar, .group (.plusLazy inRoleClass1),
    altList [seqList [wsPlus, lit "at"], .endAnchor]]

/-- `/(?:Software|Senior|Junior|Lead|Full[- ]Stack|Front[- ]End|Back[- ]End|DevOps|Cloud)\s+(?:Engineer|Developer|Architect|Developer)[^,\n]*/i`
— note: no capturing group, so `match?.[1]` is always undefined and this
pattern can never set the job profile. -/
def reRole3 : RE :=
  seqList [altList [lit "software", lit "senior", lit "junior", lit "lead",
      seqList [lit "full", .cls (fun c => c = '-' || c = ' '), lit "stack"],
      seqList [lit "front", .cls (fun c => c = '-' || c = ' '), lit "end"],
      seqList [lit "back", .cls (fun c => c = '-' || c = ' '), lit "end"],
      lit "devops", lit "cloud"],
    wsPlus, altList [lit "engineer", lit "developer", lit "architect", lit "developer"],
    .starGreedy inRoleClass2]

/-- `/(?:position|role|job)\s+(?:of|as|:)\s+([^,\n]+)/i` -/
def reRole4 : RE :=
  seqList [altList [lit "position", lit "role", lit "job"], wsPlus,
    altList [lit "of", lit "as", lit ":"], wsPlus, .group (.plusGreedy inRoleClass2)]

/-- `/applying\s+for\s+(?:the\s+)?(?:role\s+of\s+)?([^,\n.]+)/i` -/
def reRole5 : RE :=
  seqList [lit "applying", wsPlus, lit "for", wsPlus, .opt (seqList [lit "the", wsPlus]),
    .opt (seqList [lit "role", wsPlus, lit "of", wsPlus]), .group (.plusGreedy inRoleClass3)]

/-- `/position:\s*([^,\n.]+)/i` -/
def reRole6 : RE :=
  seqList [lit "position:", wsStar, .group (.plusGreedy inRoleClass3)]

def rolePatterns : List (Bool × RE) :=
  [(false, reRole1), (false, reRole2), (false, reRole3),
   (false, reRole4), (false, reRole5), (false, reRole6)]

/-- The job-profile loop of `extractEmailInfo`, first truthy `match?.[1]`
wins, default sentinel `'Unknown Position'`. -/
def extractRole (subject body : String) : String :=
  match rolePatterns.findSome? (fun pr => patternCapture pr.1 pr.2 ((subject ++ " " ++ body).data)) with
  | some cap => ⟨trimJS cap⟩
  | none => "Unknown Position"

/-! ### MIME part tree and body extraction (`getEmailBody`) -/

/-- A Gmail `Schema$MessagePart`: media type, header list (name/value, both
optional in the schema), inline base64url body data (`body?.data`), and
nested parts.  Every field can be absent. -/
inductive MessagePart : Type where
  | mk : Option String → Option (List (Option String × Option String)) →
      Option String → Option (List MessagePart) → MessagePart

def MessagePart.mimeType : MessagePart → Option String
  | .mk m _ _ _ => m

def MessagePart.headers : MessagePart → Option (List (Option String × Option String))
  | .mk _ h _ _ => h

def MessagePart.bodyData : MessagePart → Option String
  | .mk _ _ b _ => b

def MessagePart.parts : MessagePart → Option (List MessagePart)
  | .mk _ _ _ p => p

/-- `getEmailBody(payload)` (`src/unnamed/part_001` lines 188-210 and
`src/app/api/gmail/route.ts` lines 109-129, identical logic).  `decode` is
`Buffer.from(data, 'base64').toString('utf8')`.  JS truthiness: an absent or
empty `body?.data` fails the checks.  Note the function is NOT recursive:
only direct children are examined. -/
def getEmailBody (decode : String → String) : Option MessagePart → String
  | none => ""
  | some payload =>
    if payload.mimeType = some "text/plain" ∧ payload.bodyData.getD "" ≠ "" then
      decode (payload.bodyData.getD "")
    else
      match payload.parts with
      | some parts =>
          String.intercalate "\n"
            ((parts.filter (fun part => part.mimeType == some "text/plain")).map
              (fun part =>
                if part.bodyData.getD "" ≠ "" then decode (part.bodyData.getD "") else ""))
      | none => ""

/-- Definition following the claim's words, for comparison with the source's
`getEmailBody`: recursively collect the decoded content of every
`text/plain` descendant, at any depth, in child order. -/
def claimedBodyList (decode : String → String) : MessagePart → List String
  | .mk mt _ bd ps =>
    if mt = some "text/plain" ∧ bd.getD "" ≠ "" then [decode (bd.getD "")]
    else
      match ps with
      | some parts => claimedBodyMany decode parts
      | none => []
where
  claimedBodyMany (decode : String → String) : List MessagePart → List String
  | [] => []
  | p :: ps => claimedBodyList decode p ++ claimedBodyMany decode ps

/-- The claim's described result: the collected decodings joined by newlines. -/
def claimedBody (decode : String → String) (p : MessagePart) : String :=
  String.intercalate "\n" (claimedBodyList decode p)

/-! ### Message classification (`extractEmailInfo`) -/

/-- The three fields a successful AI classification yields. -/
structure AIFields where
  companyName : String
  jobProfile : String
  applicationStatus : String
deriving DecidableEq

/-- `details.data`: the raw message handed to `extractEmailInfo`
(identifier plus MIME payload; both optional in the Gmail schema). -/
structure RawMessage where
  id : Option String
  payload : Option MessagePart

/-- `headers.find(h => h.name === 'X')?.value`. -/
def headerValue (headers : List (Option String × Option String)) (nm : String) : Option String :=
  (headers.find? (fun h => h.1 == some nm)).bind (fun h => h.2)

/-- `date ? new Date(date).toISOString() : null`.  `parseDate` abstracts the
JS `Date` parser (returning the ISO-8601 rendering on success);
`toISOString()` on an Invalid Date throws a `RangeError`, which is the
`.error` case.  An absent or empty (falsy) header degrades to `null`. -/
def mkDate (parseDate : String → Option String) : Option String → Except String (Option String)
  | none => .ok none
  | some d =>
    if d = "" then .ok none
    else
      match parseDate d with
      | some iso => .ok (some iso)
      | none => .error "RangeError: Invalid time value"

/-- `from.replace(/<[^>]+>/, '').trim()`. -/
def reAngle : RE :=
  seqList [.cls (fun c => c = '<'), .plusGreedy (fun c => c ≠ '>'), .cls (fun c => c = '>')]

def cleanFrom (fromStr : String) : String := ⟨trimJS (replaceFirstRE reAngle fromStr.data)⟩

/-- The record produced per message by `src/unnamed/part_001`'s
`extractEmailInfo` (the `from` field is named `fromAddr`; `from` is reserved
in Lean). -/
structure EmailInfo where
  id : Option String
  companyName : String
  jobProfile : String
  applicationStatus : String
  date : Option String
  originalSubject : String
  fromAddr : String
deriving DecidableEq

/-- `extractEmailInfo(details)` of `src/unnamed/part_001` (lines 58-185).
`aiResult` is the outcome of `analyzeEmailWithAI` (`none` = AI failed, the
heuristic fallback runs).  The only way the function can fail is the
`toISOString()` throw modelled by `mkDate`. -/
def extractEmailInfo (parseDate : String → Option String) (decode : String → String)
    (details : RawMessage) (aiResult : Option AIFields) : Except String EmailInfo :=
  let headers := (details.payload.bind MessagePart.headers).getD []
  let subject := (headerValue headers "Subject").getD ""
  let fromStr := (headerValue headers "From").getD ""
  let date := headerValue headers "Date"
  let body := getEmailBody decode details.payload
  match mkDate parseDate date with
  | .error e => .error e
  | .ok dateISO =>
    match aiResult with
    | some ai =>
        .ok ⟨details.id, ai.companyName, ai.jobProfile, ai.applicationStatus, dateISO,
          subject, cleanFrom fromStr⟩
    | none =>
        .ok ⟨details.id, extractCompany subject body fromStr, extractRole subject body,
          determineStatus subject body, dateISO, subject, cleanFrom fromStr⟩

/-- The record type of the typed route `src/app/api/gmail/route.ts`
(`EmailInfo` there; `id` is defaulted to `''`). -/
structure EmailInfoR where
  id : String
  companyName : String
  jobProfile : String
  applicationStatus : String
  date : Option String
  originalSubject : String
  fromAddr : String
deriving DecidableEq

/-- `extractEmailInfo(details)` of `src/app/api/gmail/route.ts` (lines
68-107): same header/date handling (`?? ''` on the date header), but the
non-AI fallback assigns the constants `'Unknown Company'`,
`'Unknown Position'`, `'Applied'` — the regex parsing was replaced by a
comment. -/
def extractEmailInfoR (parseDate : String → Option String) (decode : String → String)
    (details : RawMessage) (aiResult : Option AIFields) : Except String EmailInfoR :=
  let headers := (details.payload.bind MessagePart.headers).getD []
  let subject := (headerValue headers "Subject").getD ""
  let fromStr := (headerValue headers "From").getD ""
  let date := (headerValue headers "Date").getD ""
  let _body := getEmailBody decode details.payload
  match mkDate parseDate (some date) with
  | .error e => .error e
  | .ok dateISO =>
    match aiResult with
    | some ai =>
        .ok ⟨details.id.getD "", ai.companyName, ai.jobProfile, ai.applicationStatus, dateISO,
          subject, cleanFrom fromStr⟩
    | none =>
        .ok ⟨details.id.getD "", "Unknown Company", "Unknown Position", "Applied", dateISO,
          subject, cleanFrom fromStr⟩

/-! ### HTTP routes (`GET /api/gmail`, `POST /api/gmail/new`) -/

/-- The JSON bodies the two routes can produce: a record array, `{error}`,
or `{error, details}`. -/
inductive RespBody : Type where
  | records : List EmailInfoR → RespBody
  | errOnly : String → RespBody
  | errDetails : String → String → RespBody
deriving DecidableEq

/-- Whether the body carries a `details` field. -/
def RespBody.hasDetailsField : RespBody → Bool
  | .errDetails _ _ => true
  | _ => false

structure HttpResponse where
  status : Nat
  body : RespBody
deriving DecidableEq

/-- `Promise.all(messages.map(... extractEmailInfo ...))`: the classified
records in order; rejects when any classification throws. -/
def classifyAll (classify : RawMessage → Except String EmailInfoR) :
    List RawMessage → Except String (List EmailInfoR)
  | [] => .ok []
  | m :: ms =>
    match classify m with
    | .error e => .error e
    | .ok r =>
      match classifyAll classify ms with
      | .error e => .error e
      | .ok rs => .ok (r :: rs)

/-- `POST` of `src/app/api/gmail/new/route.ts` (lines 6-48).
`accessToken` is `session?.accessToken`; `listResult` is the outcome of the
`gmail.users.messages.list` call for the incremental query
(`subject:(...) after:<lastFetchTime as ISO>`, `maxResults: 1000`), already
resolved to the fetched message details. -/
def postGmailNew (accessToken : Option String) (lastFetchTime : Nat)
    (listResult : Except String (List RawMessage))
    (classify : RawMessage → Except String EmailInfoR) : HttpResponse :=
  let _afterMillis := lastFetchTime
  match accessToken with
  | none => ⟨401, .errOnly "Not authenticated"⟩
  | some _ =>
    match listResult with
    | .error _ => ⟨500, .errOnly "Failed to fetch new emails"⟩
    | .ok messages =>
      if messages.isEmpty then ⟨200, .records []⟩
      else
        match classifyAll classify messages with
        | .error _ => ⟨500, .errOnly "Failed to fetch new emails"⟩
        | .ok messageDetails => ⟨200, .records messageDetails⟩

/-- `GET` of `src/app/api/gmail/route.ts` (lines 131-177): full sync
(`maxResults: 100`), failure body `{error, details: String(error)}`. -/
def getGmail (accessToken : Option String)
    (listResult : Except String (List RawMessage))
    (classify : RawMessage → Except String EmailInfoR) : HttpResponse :=
  match accessToken with
  | none => ⟨401, .errOnly "Not authenticated"⟩
  | some _ =>
    match listResult with
    | .error e => ⟨500, .errDetails "Failed to fetch emails" e⟩
    | .ok messages =>
      if messages.isEmpty then ⟨200, .records []⟩
      else
        match classifyAll classify messages with
        | .error e => ⟨500, .errDetails "Failed to fetch emails" e⟩
        | .ok messageDetails => ⟨200, .records messageDetails⟩

/-! ### Client sync state (`src/unnamed/part_000`) -/

/-- The `JobEmail` interface of the dashboard page. -/
structure JobEmail where
  id : String
  companyName : String
  jobProfile : String
  applicationStatus : String
  date : String
  fromAddr : String
deriving DecidableEq

/-- One `map.set(k, v)` step of the JS `Map` constructor: overwrite the
value in place when the key exists, append otherwise. -/
def mapUpsert (m : List (String × JobEmail)) (k : String) (v : JobEmail) :
    List (String × JobEmail) :=
  if m.any (fun p => p.1 == k) then m.map (fun p => if p.1 == k then (k, v) else p)
  else m ++ [(k, v)]

/-- `new Map(entries)`: insert every entry in order (later values overwrite,
keys keep first-insertion position), matching JS `Map` iteration order. -/
def jsMapOfEntries (entries : List (String × JobEmail)) : List (String × JobEmail) :=
  entries.foldl (fun m e => mapUpsert m e.1 e.2) []

/-- `updateEmailsWithNewData` merge (`src/unnamed/part_000` lines 156-162):
`combined = [...newEmails, ...prev]`, then
`Array.from(new Map(combined.map(item => [item.id, item])).values())`. -/
def updateEmailsWithNewData (newEmails prev : List JobEmail) : List JobEmail :=
  (jsMapOfEntries ((newEmails ++ prev).map (fun item => (item.id, item)))).map Prod.snd

/-- The slice of page state the sync logic touches. -/
structure ClientState where
  jobEmails : List JobEmail
  lastFetchTime : Nat
  errorMsg : Option String
deriving DecidableEq

/-- `updateEmailsWithNewData(newEmails)` as a state update: merge, then
`setLastFetchTime(Date.now())` (`now` is the completion time of the pass). -/
def applyNewData (st : ClientState) (newEmails : List JobEmail) (now : Nat) : ClientState :=
  { st with jobEmails := updateEmailsWithNewData newEmails st.jobEmails, lastFetchTime := now }

/-- `checkNewEmails` (`src/unnamed/part_000` lines 130-154): `resp` is the
`POST /api/gmail/new` outcome (`.error` covers both a rejected fetch and a
non-ok response).  On success the merge-and-watermark update runs only when
`newEmails.length > 0`. -/
def checkNewEmails (st : ClientState) (now : Nat) (resp : Except String (List JobEmail)) :
    ClientState :=
  match resp with
  | .error e => { st with errorMsg := some e }
  | .ok newEmails =>
    if newEmails.length > 0 then applyNewData st newEmails now else st

/-- `fetchEmails` (`src/unnamed/part_000` lines 172-193): full sync replaces
the record set and sets the watermark to completion time; on failure only
the error message changes. -/
def fetchEmails (st : ClientState) (now : Nat) (resp : Except String (List JobEmail)) :
    ClientState :=
  match resp with
  | .error e => { st with errorMsg := some e }
  | .ok data => { jobEmails := data, lastFetchTime := now, errorMsg := none }

/-- Replace a part's sub-parts by `none`, keeping its media type, headers
and inline data (used to state that `getEmailBody` never looks below the
direct children). -/
def MessagePart.stripSub : MessagePart → MessagePart
  | .mk mt hs bd _ => .mk mt hs bd none

/-! ### Lemmas about the JS `Map`-based merge -/

/-- Keys of an entry list. -/
def keysOf (m : List (String × JobEmail)) : List String := m.map Prod.fst

/-- Writing over an existing key leaves the key list unchanged. -/
lemma keysOf_mapUpsert_mem (m : List (String × JobEmail)) (k : String) (v : JobEmail)
    (h : m.any (fun p => p.1 == k) = true) :
    keysOf (mapUpsert m k v) = keysOf m := by
  unfold mapUpsert keysOf
  rw [if_pos h, List.map_map]
  refine List.map_congr_left ?_
  intro p _
  by_cases hp : p.1 = k
  · simp [hp]
  · simp [hp]

/-- Inserting a fresh key appends it. -/
lemma keysOf_mapUpsert_notmem (m : List (String × JobEmail)) (k : String) (v : JobEmail)
    (h : m.any (fun p => p.1 == k) = false) :
    keysOf (mapUpsert m k v) = keysOf m ++ [k] := by
  unfold mapUpsert keysOf
  rw [if_neg (by simp [h])]
  simp

/-- Looking up the written key after an upsert always yields the new pair. -/
lemma find?_mapUpsert_self (m : List (String × JobEmail)) (k : String) (v : JobEmail) :
    (mapUpsert m k v).find? (fun p => p.1 == k) = some (k, v) := by
  unfold mapUpsert
  by_cases h : m.any (fun p => p.1 == k) = true
  · rw [if_pos h]
    induction m with
    | nil => simp at h
    | cons a as ih =>
      by_cases ha : a.1 = k
      · simp [List.find?_cons, ha]
      · rw [List.map_cons, if_neg (by simp [ha] : ¬((a.1 == k) = true)),
          List.find?_cons_of_neg _ (by simp [ha])]
        exact ih (by simpa [ha] using h)
  · rw [if_neg h]
    have hnone : m.find? (fun p => p.1 == k) = none := by
      rw [List.find?_eq_none]
      intro p hp hk
      exact h (List.any_eq_true.mpr ⟨p, hp, hk⟩)
    simp [List.find?_append, hnone]

/-- Overwriting the value stored at key `k` does not change lookups of a
different key. -/
lemma find?_map_write_other (m : List (String × JobEmail)) (k : String) (v : JobEmail)
    (k' : String) (h : k' ≠ k) :
    (m.map (fun p => if p.1 == k then (k, v) else p)).find? (fun p => p.1 == k') =
      m.find? (fun p => p.1 == k') := by
  induction m with
  | nil => rfl
  | cons a as ih =>
    rw [List.map_cons]
    by_cases ha : a.1 = k
    · rw [if_pos (by simp [ha] : ((a.1 == k) = true))]
      rw [List.find?_cons_of_neg _ (by simp; exact fun e => h e.symm),
        List.find?_cons_of_neg _ (by rw [ha]; simp; exact fun e => h e.symm)]
      exact ih
    · rw [if_neg (by simp [ha] : ¬((a.1 == k) = true))]
      by_cases ha' : a.1 = k'
      · rw [List.find?_cons_of_pos _ (by simp [ha']), List.find?_cons_of_pos _ (by simp [ha'])]
      · rw [List.find?_cons_of_neg _ (by simp [ha']), List.find?_cons_of_neg _ (by simp [ha'])]
        exact ih

/-- Looking up any other key is unaffected by an upsert. -/
lemma find?_mapUpsert_other (m : List (String × JobEmail)) (k : String) (v : JobEmail)
    (k' : String) (h : k' ≠ k) :
    (mapUpsert m k v).find? (fun p => p.1 == k') = m.find? (fun p => p.1 == k') := by
  unfold mapUpsert
  by_cases hany : m.any (fun p => p.1 == k) = true
  · rw [if_pos hany]
    exact find?_map_write_other m k v k' h
  · rw [if_neg hany]
    have hone : ([(k, v)].find? (fun p => p.1 == k')) = none := by
      simp
      exact fun e => h e.symm
    simp [List.find?_append, hone]

/-- The fold underlying `jsMapOfEntries`, with an arbitrary starting map. -/
def jsFold (m : List (String × JobEmail)) (es : List (String × JobEmail)) :
    List (String × JobEmail) :=
  es.foldl (fun m e => mapUpsert m e.1 e.2) m

lemma jsMapOfEntries_eq_jsFold (es : List (String × JobEmail)) :
    jsMapOfEntries es = jsFold [] es := rfl

/-- Last write wins: looking up `k` in the built map finds the value of the
last entry with key `k` (the first in reverse order), else what the starting
map holds. -/
lemma find?_jsFold (es : List (String × JobEmail)) :
    ∀ (m : List (String × JobEmail)) (k : String),
      (jsFold m es).find? (fun p => p.1 == k) =
        (match es.reverse.find? (fun e => e.1 == k) with
         | some e => some (k, e.2)
         | none => m.find? (fun p => p.1 == k)) := by
  induction es with
  | nil => intro m k; simp [jsFold]
  | cons e es ih =>
    intro m k
    rw [show jsFold m (e :: es) = jsFold (mapUpsert m e.1 e.2) es from rfl, ih]
    rw [List.reverse_cons, List.find?_append]
    cases h2 : es.reverse.find? (fun e' => e'.1 == k) with
    | some e' => simp
    | none =>
      by_cases hk : e.1 = k
      · have : ([e].find? fun e' => e'.1 == k) = some e := by simp [hk]
        simp only [this, Option.or]
        rw [← hk, find?_mapUpsert_self]
      · have : ([e].find? fun e' => e'.1 == k) = none := by simp [hk]
        simp only [this, Option.or]
        exact find?_mapUpsert_other m e.1 e.2 k (fun h => hk h.symm)

/-- Membership in the key list after an upsert. -/
lemma mem_keysOf_mapUpsert (m : List (String × JobEmail)) (k : String) (v : JobEmail)
    (x : String) : x ∈ keysOf (mapUpsert m k v) ↔ x ∈ keysOf m ∨ x = k := by
  by_cases h : m.any (fun p => p.1 == k) = true
  · rw [keysOf_mapUpsert_mem m k v h]
    obtain ⟨p, hp, hpk⟩ := List.any_eq_true.mp h
    have hk : k ∈ keysOf m := by
      refine List.mem_map.mpr ⟨p, hp, ?_⟩
      simpa using hpk
    constructor
    · exact Or.inl
    · rintro (hx | rfl)
      · exact hx
      · exact hk
  · rw [keysOf_mapUpsert_notmem m k v (Bool.eq_false_iff.mpr h)]
    simp

/-- Key-list distinctness is preserved by an upsert. -/
lemma nodup_keysOf_mapUpsert (m : List (String × JobEmail)) (k : String) (v : JobEmail)
    (h : (keysOf m).Nodup) : (keysOf (mapUpsert m k v)).Nodup := by
  by_cases ha : m.any (fun p => p.1 == k) = true
  · rw [keysOf_mapUpsert_mem m k v ha]; exact h
  · rw [keysOf_mapUpsert_notmem m k v (Bool.eq_false_iff.mpr ha)]
    rw [List.nodup_append]
    refine ⟨h, List.nodup_singleton k, ?_⟩
    intro x hx hk
    have hxk : x = k := by simpa using hk
    subst hxk
    have : ∃ p, p ∈ m ∧ (p.1 == x) = true := by
      obtain ⟨p, hp, hpx⟩ := List.mem_map.mp hx
      exact ⟨p, hp, by simp [hpx]⟩
    exact ha (List.any_eq_true.mpr this)

/-- The built map's keys are distinct. -/
lemma nodup_keysOf_jsFold (es : List (String × JobEmail)) :
    ∀ m, (keysOf m).Nodup → (keysOf (jsFold m es)).Nodup := by
  induction es with
  | nil => intro m h; exact h
  | cons e es ih =>
    intro m h
    exact ih (mapUpsert m e.1 e.2) (nodup_keysOf_mapUpsert m e.1 e.2 h)

/-- The built map's key set is the starting map's keys plus the entry keys. -/
lemma toFinset_keysOf_jsFold (es : List (String × JobEmail)) :
    ∀ m, (keysOf (jsFold m es)).toFinset =
      (keysOf m).toFinset ∪ (es.map Prod.fst).toFinset := by
  induction es with
  | nil => intro m; simp [jsFold]
  | cons e es ih =>
    intro m
    rw [show jsFold m (e :: es) = jsFold (mapUpsert m e.1 e.2) es from rfl, ih]
    ext x
    simp only [Finset.mem_union, List.mem_toFinset, mem_keysOf_mapUpsert, List.map_cons,
      List.mem_cons]
    tauto

/-- Every pair in the built map satisfies `key = value.id` when the entries
and the starting map do. -/
lemma jsFold_pair_id (es : List (String × JobEmail)) :
    ∀ m, (∀ p ∈ m, p.1 = p.2.id) → (∀ e ∈ es, e.1 = e.2.id) →
      ∀ p ∈ jsFold m es, p.1 = p.2.id := by
  induction es with
  | nil => intro m hm _ p hp; exact hm p hp
  | cons e es ih =>
    intro m hm hes p hp
    refine ih (mapUpsert m e.1 e.2) ?_ (fun e' he' => hes e' (List.mem_cons_of_mem _ he')) p hp
    intro q hq
    unfold mapUpsert at hq
    by_cases hany : m.any (fun p => p.1 == e.1) = true
    · rw [if_pos hany] at hq
      obtain ⟨r, hr, hrq⟩ := List.mem_map.mp hq
      by_cases hrk : r.1 = e.1
      · rw [if_pos (by simp [hrk])] at hrq
        rw [← hrq]
        exact hes e (List.mem_cons_self e es)
      · rw [if_neg (by simp [hrk])] at hrq
        rw [← hrq]
        exact hm r hr
    · rw [if_neg hany] at hq
      rcases List.mem_append.mp hq with hq | hq
      · exact hm q hq
      · have : q = (e.1, e.2) := by simpa using hq
        rw [this]
        exact hes e (List.mem_cons_self e es)

/-- `find?` only depends on predicate values on list members. -/
lemma find?_congr_mem {α : Type} (l : List α) (p q : α → Bool)
    (h : ∀ x ∈ l, p x = q x) : l.find? p = l.find? q := by
  induction l with
  | nil => rfl
  | cons a as ih =>
    rw [List.find?_cons, List.find?_cons, h a (List.mem_cons_self a as),
      ih (fun x hx => h x (List.mem_cons_of_mem a hx))]

/-! ### Claim theorems -/

/-- C9: merging a batch into a record set keeps exactly one record per id
(the last entry applied to the `Map` wins — entries are applied in the order
`[...newEmails, ...prev]`), and the resulting size is the number of distinct
ids across the batch and the old set. -/
theorem C9_dedup_closure (newEmails prev : List JobEmail) :
    ((updateEmailsWithNewData newEmails prev).map JobEmail.id).Nodup ∧
    (updateEmailsWithNewData newEmails prev).length =
      (((newEmails ++ prev).map JobEmail.id).dedup).length ∧
    ∀ k : String,
      (updateEmailsWithNewData newEmails prev).find? (fun r => r.id == k) =
        (newEmails ++ prev).reverse.find? (fun r => r.id == k) := by
  set entries := (newEmails ++ prev).map (fun item => (item.id, item)) with hentries
  have hpair : ∀ p ∈ jsFold [] entries, p.1 = p.2.id := by
    refine jsFold_pair_id entries [] (by intro p hp; cases hp) ?_
    intro e he
    obtain ⟨r, _, hr⟩ := List.mem_map.mp he
    rw [← hr]
  have hvalmap : (jsFold [] entries).map (fun p => p.2.id) = keysOf (jsFold [] entries) := by
    refine List.map_congr_left ?_
    intro p hp
    exact (hpair p hp).symm
  have hids : (updateEmailsWithNewData newEmails prev).map JobEmail.id =
      keysOf (jsFold [] entries) := by
    unfold updateEmailsWithNewData
    rw [← jsMapOfEntries_eq_jsFold, jsMapOfEntries_eq_jsFold, List.map_map, ← hvalmap]
    rfl
  have hnodup : (keysOf (jsFold [] entries)).Nodup :=
    nodup_keysOf_jsFold entries [] List.nodup_nil
  refine ⟨hids ▸ hnodup, ?_, ?_⟩
  · have hlen1 : (updateEmailsWithNewData newEmails prev).length =
        (keysOf (jsFold [] entries)).length := by
      rw [← hids, List.length_map]
    have hlen2 : (keysOf (jsFold [] entries)).length =
        (keysOf (jsFold [] entries)).toFinset.card :=
      (List.toFinset_card_of_nodup hnodup).symm
    have hfin : (keysOf (jsFold [] entries)).toFinset =
        ((newEmails ++ prev).map JobEmail.id).toFinset := by
      rw [toFinset_keysOf_jsFold entries []]
      have : entries.map Prod.fst = (newEmails ++ prev).map JobEmail.id := by
        rw [hentries, List.map_map]; rfl
      simp [keysOf, this]
    rw [hlen1, hlen2, hfin, List.card_toFinset]
  · intro k
    have hstep1 : (updateEmailsWithNewData newEmails prev).find? (fun r => r.id == k) =
        ((jsFold [] entries).find? (fun p => p.2.id == k)).map Prod.snd := by
      unfold updateEmailsWithNewData
      rw [← jsMapOfEntries_eq_jsFold, jsMapOfEntries_eq_jsFold, List.find?_map]
      rfl
    have hstep2 : (jsFold [] entries).find? (fun p => p.2.id == k) =
        (jsFold [] entries).find? (fun p => p.1 == k) := by
      refine find?_congr_mem _ _ _ ?_
      intro p hp
      rw [hpair p hp]
    rw [hstep1, hstep2, find?_jsFold entries [] k]
    have hrev : entries.reverse = ((newEmails ++ prev).reverse).map (fun item => (item.id, item)) := by
      rw [hentries, ← List.map_reverse]
    rw [hrev, List.find?_map]
    cases hfind : (newEmails ++ prev).reverse.find? (fun r => r.id == k) with
    | none =>
        have : ((newEmails ++ prev).reverse.find?
            ((fun (p : String × JobEmail) => p.1 == k) ∘ fun item => (item.id, item))) = none := by
          exact hfind
        rw [this]
        rfl
    | some r =>
        have : ((newEmails ++ prev).reverse.find?
            ((fun (p : String × JobEmail) => p.1 == k) ∘ fun item => (item.id, item))) = some r := by
          exact hfind
        rw [this]
        have hk : r.id = k := by
          have := List.find?_some hfind
          simpa using this
        simp [hk]

/-- C1: at the concrete failing input — an existing record with id `X`
(status Applied) and a new batch carrying a record with the same id
(status Interview) — the merge keeps the OLD record: `combined` is
`[...newEmails, ...prev]` and the JS `Map` lets the LAST entry win, so the
previously stored record overwrites the newly classified one, contradicting
the documented "new always wins" contract. -/
theorem C1_merge_keeps_old :
    updateEmailsWithNewData
        [⟨"X", "Acme", "Engineer", "Interview", "2024-05-02", "a@acme.com"⟩]
        [⟨"X", "Acme", "Engineer", "Applied", "2024-04-01", "a@acme.com"⟩] =
      [⟨"X", "Acme", "Engineer", "Applied", "2024-04-01", "a@acme.com"⟩] ∧
    (⟨"X", "Acme", "Engineer", "Applied", "2024-04-01", "a@acme.com"⟩ : JobEmail) ≠
      ⟨"X", "Acme", "Engineer", "Interview", "2024-05-02", "a@acme.com"⟩ := by
  constructor
  · rfl
  · decide

/-- C8: watermark atomicity on failure — when the incremental pass fails
(rejected fetch or non-ok response), the watermark and the record set after
`checkNewEmails` both equal their values before the pass. -/
theorem C8_watermark_atomic (st : ClientState) (now : Nat) (e : String) :
    (checkNewEmails st now (.error e)).lastFetchTime = st.lastFetchTime ∧
    (checkNewEmails st now (.error e)).jobEmails = st.jobEmails := by
  constructor <;> rfl

/-- C7 counterexample: a successful incremental pass whose batch is empty
does NOT advance the watermark — at watermark 5 and completion time 10, the
watermark after the pass is still 5, not the 10 the claim requires. -/
theorem C7_counterexample :
    (checkNewEmails ⟨[], 5, none⟩ 10 (.ok [])).lastFetchTime = 5 ∧ (5 : Nat) ≠ 10 := by
  constructor
  · rfl
  · decide

/-- C7 amended: the watermark is set to the pass's completion time (`now`,
never a message date) exactly when a successful pass changes data: on every
successful full sync, and on every successful incremental pass with a
non-empty batch; a successful incremental pass with an empty batch leaves
the watermark unchanged. -/
theorem C7_amended (st : ClientState) (now : Nat) (newEmails data : List JobEmail) :
    (newEmails ≠ [] → (checkNewEmails st now (.ok newEmails)).lastFetchTime = now) ∧
    (newEmails = [] → (checkNewEmails st now (.ok newEmails)).lastFetchTime = st.lastFetchTime) ∧
    (fetchEmails st now (.ok data)).lastFetchTime = now := by
  refine ⟨?_, ?_, rfl⟩
  · intro h
    cases newEmails with
    | nil => exact absurd rfl h
    | cons a as => simp [checkNewEmails, applyNewData]
  · intro h
    subst h
    rfl

/-- C7 amended, witness at concrete inputs. -/
theorem C7_amended_witness :
    (checkNewEmails ⟨[], 5, none⟩ 10
        (.ok [⟨"X", "Acme", "Engineer", "Applied", "2024", "a"⟩])).lastFetchTime = 10 ∧
    (checkNewEmails ⟨[], 5, none⟩ 10 (.ok ([] : List JobEmail))).lastFetchTime = 5 ∧
    (fetchEmails ⟨[], 5, none⟩ 10 (.ok ([] : List JobEmail))).lastFetchTime = 10 :=
  ⟨(C7_amended ⟨[], 5, none⟩ 10 [⟨"X", "Acme", "Engineer", "Applied", "2024", "a"⟩] []).1
      (by decide),
   (C7_amended ⟨[], 5, none⟩ 10 [] []).2.1 rfl,
   (C7_amended ⟨[], 5, none⟩ 10 [] []).2.2⟩

/-- C3 counterexample: on a provider failure the incremental endpoint's 500
body is `{error}` with no `details` field, while the full-sync endpoint's
500 body is `{error, details}` — the two error shapes are NOT the same, at
the concrete failing provider result `"boom"`. -/
theorem C3_counterexample :
    (postGmailNew (some "tok") 0 (.error "boom") (fun _ => .error "")).body.hasDetailsField
        = false ∧
    (getGmail (some "tok") (.error "boom") (fun _ => .error "")).body.hasDetailsField = true ∧
    postGmailNew (some "tok") 0 (.error "boom") (fun _ => .error "") =
      ⟨500, .errOnly "Failed to fetch new emails"⟩ ∧
    getGmail (some "tok") (.error "boom") (fun _ => .error "") =
      ⟨500, .errDetails "Failed to fetch emails" "boom"⟩ :=
  ⟨rfl, rfl, rfl, rfl⟩

/-- C3 amended: the incremental endpoint returns 401 `{error}` without a
credential, 500 with body `{error}` only (no `details` field, unlike the
full-sync endpoint) on failure, and on provider success an array of the
classified records — of the same length as the provider's message list, so
non-empty whenever the provider returned at least one message. -/
theorem C3_amended (tok err : String) (t : Nat) (msgs : List RawMessage)
    (rs : List EmailInfoR) (classify : RawMessage → Except String EmailInfoR) :
    postGmailNew none t (.ok msgs) classify = ⟨401, .errOnly "Not authenticated"⟩ ∧
    postGmailNew (some tok) t (.error err) classify =
      ⟨500, .errOnly "Failed to fetch new emails"⟩ ∧
    (classifyAll classify msgs = .ok rs →
      postGmailNew (some tok) t (.ok msgs) classify = ⟨200, .records rs⟩ ∧
        rs.length = msgs.length) := by
  refine ⟨rfl, rfl, ?_⟩
  intro h
  have hlen : ∀ (ms : List RawMessage) (out : List EmailInfoR),
      classifyAll classify ms = .ok out → out.length = ms.length := by
    intro ms
    induction ms with
    | nil =>
        intro out hout
        cases hout
        rfl
    | cons m ms ih =>
        intro out hout
        unfold classifyAll at hout
        cases hc : classify m with
        | error e => rw [hc] at hout; cases hout
        | ok r =>
            rw [hc] at hout
            cases hrest : classifyAll classify ms with
            | error e => rw [hrest] at hout; cases hout
            | ok rest =>
                rw [hrest] at hout
                cases hout
                simp [ih rest hrest]
  constructor
  · cases msgs with
    | nil =>
        cases h
        rfl
    | cons m ms =>
        unfold postGmailNew
        simp only [List.isEmpty_cons, Bool.false_eq_true, if_false, h]
  · exact hlen msgs rs h

/-- C3 amended, witness at concrete inputs. -/
theorem C3_amended_witness :
    postGmailNew none 0 (.ok []) (fun _ => .error "") =
      ⟨401, .errOnly "Not authenticated"⟩ ∧
    postGmailNew (some "tok") 0 (.error "boom2") (fun _ => .error "") =
      ⟨500, .errOnly "Failed to fetch new emails"⟩ ∧
    postGmailNew (some "tok") 0 (.ok [⟨some "m", none⟩])
        (fun m => .ok ⟨m.id.getD "", "C", "P", "Applied", none, "", ""⟩) =
      ⟨200, .records [⟨"m", "C", "P", "Applied", none, "", ""⟩]⟩ :=
  ⟨(C3_amended "tok" "boom2" 0 [] [] (fun _ => .error "")).1,
   (C3_amended "tok" "boom2" 0 [] [] (fun _ => .error "")).2.1,
   ((C3_amended "tok" "boom2" 0 [⟨some "m", none⟩] [⟨"m", "C", "P", "Applied", none, "", ""⟩]
      (fun m => .ok ⟨m.id.getD "", "C", "P", "Applied", none, "", ""⟩)).2.2 rfl).1⟩

/-- C10: in the typed full-sync route, whenever the AI classifier yields no
result, any record the fallback path assembles carries exactly the constants
`'Unknown Company'`, `'Unknown Position'`, `'Applied'` — the heuristic
parsing was replaced by a comment, so the fallback ignores subject, body and
sender entirely. -/
theorem C10_fallback_constant (parseDate : String → Option String)
    (decode : String → String) (details : RawMessage) (r : EmailInfoR)
    (h : extractEmailInfoR parseDate decode details none = .ok r) :
    r.companyName = "Unknown Company" ∧ r.jobProfile = "Unknown Position" ∧
      r.applicationStatus = "Applied" := by
  simp only [extractEmailInfoR] at h
  split at h
  · cases h
  · cases h
    exact ⟨rfl, rfl, rfl⟩

/-- C10 witness at a concrete message. -/
theorem C10_fallback_constant_witness :
    ((⟨"m", "Unknown Company", "Unknown Position", "Applied", none, "", ""⟩ :
        EmailInfoR).companyName = "Unknown Company") ∧
    ((⟨"m", "Unknown Company", "Unknown Position", "Applied", none, "", ""⟩ :
        EmailInfoR).jobProfile = "Unknown Position") ∧
    ((⟨"m", "Unknown Company", "Unknown Position", "Applied", none, "", ""⟩ :
        EmailInfoR).applicationStatus = "Applied") :=
  C10_fallback_constant (fun _ => none) (fun s => s) ⟨some "m", none⟩
    ⟨"m", "Unknown Company", "Unknown Position", "Applied", none, "", ""⟩ rfl

/-- C2: classification is NOT total — at a message whose `Date` header is
present but unparsable, `new Date(date).toISOString()` throws (modelled by
the `.error` result), instead of degrading to a null date; a message with no
parsable-date problem (here: no headers at all) classifies fine, with
`date = null` and sentinel fields. -/
theorem C2_unparsable_date_raises :
    extractEmailInfo (fun _ => none) (fun s => s)
        ⟨some "m1", some (.mk none (some [(some "Date", some "not-a-date")]) none none)⟩ none =
      .error "RangeError: Invalid time value" ∧
    extractEmailInfo (fun _ => none) (fun s => s)
        ⟨some "m2", some (.mk none (some []) none none)⟩ none =
      .ok ⟨some "m2", "", "Unknown Position", "Applied", none, "", ""⟩ :=
  ⟨rfl, rfl⟩

/-- The per-child contribution lists only depend on the children's media
types and inline data, never on their own sub-parts. -/
lemma bodyJoin_stripSub (decode : String → String) (children : List MessagePart) :
    ((children.map MessagePart.stripSub).filter
        (fun part => part.mimeType == some "text/plain")).map
      (fun part => if part.bodyData.getD "" ≠ "" then decode (part.bodyData.getD "") else "") =
    (children.filter (fun part => part.mimeType == some "text/plain")).map
      (fun part => if part.bodyData.getD "" ≠ "" then decode (part.bodyData.getD "") else "") := by
  induction children with
  | nil => rfl
  | cons c cs ih =>
    cases c with
    | mk mt hs bd ps =>
      by_cases hmt : (mt == some "text/plain") = true
      · simp only [List.map_cons, MessagePart.stripSub, List.filter_cons,
          MessagePart.mimeType, hmt, if_true, List.map_cons, MessagePart.bodyData]
        exact congrArg (List.cons _) ih
      · simp only [List.map_cons, MessagePart.stripSub, List.filter_cons,
          MessagePart.mimeType, hmt, if_false, Bool.false_eq_true]
        exact ih

/-- C4 counterexample: a tree whose only `text/plain` part is a grandchild
(nested inside a `multipart/alternative` child).  The claim's recursive
reading (`claimedBody`) extracts it, but the source's `getEmailBody` filters
direct children only, so the nested part contributes nothing and the body is
empty. -/
theorem C4_counterexample :
    getEmailBody (fun s => s)
        (some (.mk (some "multipart/mixed") none none
          (some [.mk (some "multipart/alternative") none none
            (some [.mk (some "text/plain") none (some "SGVsbG8") none])]))) = "" ∧
    claimedBody (fun s => s)
        (.mk (some "multipart/mixed") none none
          (some [.mk (some "multipart/alternative") none none
            (some [.mk (some "text/plain") none (some "SGVsbG8") none])])) = "SGVsbG8" ∧
    ("" : String) ≠ "SGVsbG8" := by
  refine ⟨rfl, ?_, by decide⟩
  simp [claimedBody, claimedBodyList, claimedBodyList.claimedBodyMany]
  rfl

/-- C4 amended: for an absent input `getEmailBody` returns the empty
string; for a part that is not exactly `text/plain`-with-inline-content and
has a child list, the result is the newline-join over its DIRECT children
with media type `text/plain` (children without inline content contribute
empty strings); parts below the direct children are never inspected —
stripping every child's own sub-parts does not change the result. -/
theorem C4_amended (decode : String → String) (mt : Option String)
    (hs : Option (List (Option String × Option String))) (bd : Option String)
    (children : List MessagePart)
    (h : ¬(mt = some "text/plain" ∧ bd.getD "" ≠ "")) :
    getEmailBody decode none = "" ∧
    getEmailBody decode (some (.mk mt hs bd (some children))) =
      String.intercalate "\n"
        ((children.filter (fun part => part.mimeType == some "text/plain")).map
          (fun part =>
            if part.bodyData.getD "" ≠ "" then decode (part.bodyData.getD "") else "")) ∧
    getEmailBody decode (some (.mk mt hs bd (some (children.map MessagePart.stripSub)))) =
      getEmailBody decode (some (.mk mt hs bd (some children))) := by
  refine ⟨rfl, ?_, ?_⟩
  · show (if (MessagePart.mk mt hs bd (some children)).mimeType = some "text/plain" ∧
        (MessagePart.mk mt hs bd (some children)).bodyData.getD "" ≠ "" then
          decode ((MessagePart.mk mt hs bd (some children)).bodyData.getD "")
        else _) = _
    rw [if_neg (by simpa [MessagePart.mimeType, MessagePart.bodyData] using h)]
  · show (if (MessagePart.mk mt hs bd (some (children.map MessagePart.stripSub))).mimeType
          = some "text/plain" ∧
        (MessagePart.mk mt hs bd
          (some (children.map MessagePart.stripSub))).bodyData.getD "" ≠ "" then _ else _) = _
    rw [if_neg (by simpa [MessagePart.mimeType, MessagePart.bodyData] using h)]
    show _ = (if (MessagePart.mk mt hs bd (some children)).mimeType = some "text/plain" ∧
        (MessagePart.mk mt hs bd (some children)).bodyData.getD "" ≠ "" then _ else _)
    rw [if_neg (by simpa [MessagePart.mimeType, MessagePart.bodyData] using h)]
    show String.intercalate "\n" _ = String.intercalate "\n" _
    rw [bodyJoin_stripSub]

/-- C4 amended, witness at the counterexample tree's top level. -/
theorem C4_amended_witness :
    getEmailBody (fun s => s) none = "" ∧
    getEmailBody (fun s => s)
        (some (.mk (some "multipart/mixed") none none
          (some [.mk (some "multipart/alternative") none none
            (some [.mk (some "text/plain") none (some "SGVsbG8") none])]))) =
      String.intercalate "\n"
        ((([MessagePart.mk (some "multipart/alternative") none none
            (some [.mk (some "text/plain") none (some "SGVsbG8") none])]).filter
          (fun part => part.mimeType == some "text/plain")).map
          (fun part =>
            if part.bodyData.getD "" ≠ "" then (fun s => s) (part.bodyData.getD "") else "")) ∧
    getEmailBody (fun s => s)
        (some (.mk (some "multipart/mixed") none none
          (some (([MessagePart.mk (some "multipart/alternative") none none
            (some [.mk (some "text/plain") none (some "SGVsbG8") none])]).map
              MessagePart.stripSub)))) =
      getEmailBody (fun s => s)
        (some (.mk (some "multipart/mixed") none none
          (some [.mk (some "multipart/alternative") none none
            (some [.mk (some "text/plain") none (some "SGVsbG8") none])]))) :=
  C4_amended (fun s => s) (some "multipart/mixed") none none
    [.mk (some "multipart/alternative") none none
      (some [.mk (some "text/plain") none (some "SGVsbG8") none])]
    (by decide)

/-- C5: status categories are evaluated against the lower-cased
`subject + ' ' + body` in the fixed order Rejected, Interview, Offer,
Application Received, first matching category wins, default Applied; in
particular "Unfortunately, thank you for your interest in the role"
classifies as Rejected even though it also matches an Application Received
pattern (`thank you for your interest`). -/
theorem C5_status_priority :
    (∀ subject body : String,
      determineStatus subject body =
        (if rejectedPatterns.any (fun re => reTest re (lowerCombined subject body)) then
          "Rejected"
        else if interviewPatterns.any (fun re => reTest re (lowerCombined subject body)) then
          "Interview"
        else if offerPatterns.any (fun re => reTest re (lowerCombined subject body)) then
          "Offer"
        else if appReceivedPatterns.any (fun re => reTest re (lowerCombined subject body)) then
          "Application Received"
        else "Applied")) ∧
    determineStatus "" "Unfortunately, thank you for your interest in the role" = "Rejected" ∧
    reTest reAppRec2 (lowerCombined "" "Unfortunately, thank you for your interest in the role")
      = true := by
  refine ⟨?_, by decide, by decide⟩
  intro subject body
  unfold determineStatus statusPatterns
  cases h1 : rejectedPatterns.any (fun re => reTest re (lowerCombined subject body)) with
  | true => simp [List.find?_cons, h1]
  | false =>
    cases h2 : interviewPatterns.any (fun re => reTest re (lowerCombined subject body)) with
    | true => simp [List.find?_cons, h1, h2]
    | false =>
      cases h3 : offerPatterns.any (fun re => reTest re (lowerCombined subject body)) with
      | true => simp [List.find?_cons, h1, h2, h3]
      | false =>
        cases h4 : appReceivedPatterns.any (fun re => reTest re (lowerCombined subject body)) with
        | true => simp [List.find?_cons, h1, h2, h3, h4]
        | false => simp [List.find?_cons, h1, h2, h3, h4]

/-- C6 counterexample: at the claim's own example — subject
"Your application", empty body, sender `jobs@Acme-Careers.com` — the
company name is "Your application", not "Acme": company pattern 2
(`/^([A-Za-z0-9\s&\.]+?)(?:\s*[-–—|]|$)/`) already matches the whole
combined text, so the domain fallback never runs (and the domain regex
`/@([^>]+)>/` would not even match a sender without an angle-bracketed
address). -/
theorem C6_counterexample :
    extractCompany "Your application" "" "jobs@Acme-Careers.com" = "Your application" ∧
    ("Your application" : String) ≠ "Acme" := by
  constructor
  · decide
  · decide

/-- C6 amended: the domain fallback applies only when no company pattern
produced a usable capture AND the sender carries an angle-bracketed address
(`/@([^>]+)>/`); it then takes the first label of the captured domain,
removes the first occurrence of careers/jobs/hr/recruiting/talent, splits
on `.`/`-`, capitalizes and joins.  Subject "Your application" instead hits
pattern 2 and yields "Your application"; a non-matching subject such as
"(" with sender `Jobs <jobs@Acme-Careers.com>` yields "Acme". -/
theorem C6_amended (subject body fromStr : String)
    (h : findCompanyMatch ((subject ++ " " ++ body).data) = none)
    (h2 : companyDomainOf fromStr ≠ []) :
    extractCompany subject body fromStr = ⟨deriveCompanyFromDomain (companyDomainOf fromStr)⟩ := by
  simp only [extractCompany, h]
  simp [h2]

/-- C6 amended, witness: the domain fallback at a concrete non-matching
subject produces "Acme". -/
theorem C6_amended_witness :
    extractCompany "(" "" "Jobs <jobs@Acme-Careers.com>" = "Acme" :=
  (C6_amended "(" "" "Jobs <jobs@Acme-Careers.com>" (by decide) (by decide)).trans (by decide)

end JobTracker
